import Mathlib

/-!
Verification development for the reclaim-mcp-server repository.

The repository's algorithmic core is
  * the local-time resolver (`parseDeadline`, `zonedTimeToUtc`,
    `assertValidLocalDateTime` in `src/reclaim-client.ts`), and
  * the duration/defaults normalizer (`minutesToChunks`,
    `normalizeChunkInputs` in `src/tools/taskCrud.ts`,
    `validateChunkSizes`, `applyTaskDefaultsForCreate`,
    `normalizeTaskPatch` in `src/reclaim-client.ts`).

The TypeScript code is embedded shallowly: JavaScript numbers holding
integral millisecond timestamps and chunk counts become `Int`, optional
fields become `Option`, thrown errors become `Except String`.  The
JavaScript `Date` built-ins (`Date.UTC`, the `getUTC*` accessors,
`setDate`) and the `Intl.DateTimeFormat` rendering primitive are modelled
from the ECMAScript specification: calendar arithmetic is `makeDay` /
`civilFromDays` below, and a time zone is modelled by its UTC-offset
function (`Int → Int`, milliseconds), from which the formatter's
wall-clock rendering is derived.  `/` and `%` on `Int` are floor
division / nonnegative remainder, which agrees with the ECMAScript
`floor` and `modulo` operations used by the `Date` algorithms.
-/

namespace Reclaim

/-! ## JavaScript string helpers -/

/-- ASCII members of the JavaScript whitespace class used by
`String.prototype.trim` and the regex class `\s`. -/
def jsSpaceChar (c : Char) : Bool :=
  c = ' ' || c = '\t' || c = '\n' || c = '\r' || c = '\x0b' || c = '\x0c'

/-- Model of `String.prototype.trim` (ASCII whitespace). -/
def jsTrim (s : String) : String :=
  ⟨((s.data.dropWhile jsSpaceChar).reverse.dropWhile jsSpaceChar).reverse⟩

/-- Numeric value of a list of decimal digit characters, most significant
first; models `Number(...)` applied to an all-digit string. -/
def digitsToInt (cs : List Char) : Int :=
  cs.foldl (fun a c => a * 10 + ((c.toNat : Int) - 48)) 0

/-! ## ECMAScript calendar arithmetic

Models of the abstract operations behind `Date.UTC`, the `getUTC*`
accessors and `setDate`: `DayFromYear`, `MakeDay`, `YearFromTime`,
`MonthFromTime`, `DateFromTime`.  Months are 0-based here, exactly as in
the ECMAScript operations; the TypeScript code passes `month - 1`. -/

/-- The proleptic Gregorian leap-year rule. -/
def isLeap (y : Int) : Bool :=
  (y % 4 = 0 && y % 100 ≠ 0) || y % 400 = 0

/-- ECMAScript `DayFromYear`: day number (days since 1970-01-01) of
January 1 of year `y`. -/
def dayFromYear (y : Int) : Int :=
  365 * (y - 1970) + (y - 1969) / 4 - (y - 1901) / 100 + (y - 1601) / 400

/-- 1 on leap years, 0 otherwise (ECMAScript `InLeapYear`). -/
def leapDays (y : Int) : Int :=
  if isLeap y then 1 else 0

/-- Day-of-year of the first day of 0-based month `m` in a non-leap year. -/
def monthStartDay (m : Int) : Int :=
  if m = 0 then 0 else if m = 1 then 31 else if m = 2 then 59
  else if m = 3 then 90 else if m = 4 then 120 else if m = 5 then 151
  else if m = 6 then 181 else if m = 7 then 212 else if m = 8 then 243
  else if m = 9 then 273 else if m = 10 then 304 else 334

/-- ECMAScript `MakeDay`: day number of year `y`, 0-based month `m0`
(normalized modulo 12 with carry into the year), day-of-month `dt`.
Linear in `dt`, so out-of-range day values roll over into adjacent
months exactly as `Date.UTC` does. -/
def makeDay (y m0 dt : Int) : Int :=
  let ym := y + m0 / 12
  let mn := m0 % 12
  dayFromYear ym + monthStartDay mn + (if 2 ≤ mn then leapDays ym else 0) + dt - 1

/-- Bounded search for the greatest year `y` with `dayFromYear y ≤ z`,
starting at `y` and taking at most `fuel` upward steps; implements the
defining property of ECMAScript `YearFromTime`. -/
def yearSearch : Nat → Int → Int → Int
  | 0, y, _ => y
  | fuel + 1, y, z => if dayFromYear (y + 1) ≤ z then yearSearch fuel (y + 1) z else y

/-- ECMAScript `YearFromTime` at day precision: the unique `y` with
`dayFromYear y ≤ z < dayFromYear (y + 1)`.  Computed by cutting the day
number into 400-year eras anchored at year 1600 and searching inside the
era. -/
def yearFromDay (z : Int) : Int :=
  let era := (z - dayFromYear 1600) / 146097
  yearSearch 400 (1600 + era * 400) z

/-- ECMAScript `MonthFromTime`/`DateFromTime`: 0-based month and
day-of-month from the leap-year flag and the day-within-year `dwy`. -/
def monthDayOf (leap dwy : Int) : Int × Int :=
  if dwy < 31 then (0, dwy + 1)
  else if dwy < 59 + leap then (1, dwy - 30)
  else if dwy < 90 + leap then (2, dwy - 58 - leap)
  else if dwy < 120 + leap then (3, dwy - 89 - leap)
  else if dwy < 151 + leap then (4, dwy - 119 - leap)
  else if dwy < 181 + leap then (5, dwy - 150 - leap)
  else if dwy < 212 + leap then (6, dwy - 180 - leap)
  else if dwy < 243 + leap then (7, dwy - 211 - leap)
  else if dwy < 273 + leap then (8, dwy - 242 - leap)
  else if dwy < 304 + leap then (9, dwy - 272 - leap)
  else if dwy < 334 + leap then (10, dwy - 303 - leap)
  else (11, dwy - 333 - leap)

/-- Calendar decomposition of a day number: year, 0-based month and
day-of-month, per the ECMAScript `YearFromTime` / `MonthFromTime` /
`DateFromTime` operations. -/
def civilFromDays (z : Int) : Int × Int × Int :=
  let y := yearFromDay z
  let md := monthDayOf (leapDays y) (z - dayFromYear y)
  (y, md.1, md.2)

/-- ECMAScript `MakeFullYear` (the legacy rule mapping two-digit years to
19xx), applied by `Date.UTC` before `MakeDay`. -/
def makeFullYear (y : Int) : Int :=
  if 0 ≤ y && y ≤ 99 then 1900 + y else y

/-- Model of `Date.UTC(y, m0, d, h, mi, s, ms)` in milliseconds. -/
def dateUTC (y m0 d h mi s ms : Int) : Int :=
  makeDay (makeFullYear y) m0 d * 86400000 + h * 3600000 + mi * 60000 + s * 1000 + ms

/-! ### Round-trip of the calendar decomposition -/

theorem dayFromYear_succ (y : Int) :
    dayFromYear (y + 1) = dayFromYear y + 365 + leapDays y := by
  simp only [dayFromYear, leapDays, isLeap]
  split <;> rename_i h <;>
    simp only [Bool.or_eq_true, Bool.and_eq_true, decide_eq_true_eq,
      bne_iff_ne, ne_eq, decide_eq_true_eq] at h <;> omega

theorem leapDays_cases (y : Int) : leapDays y = 0 ∨ leapDays y = 1 := by
  unfold leapDays
  split <;> simp

theorem dayFromYear_era (k : Int) :
    dayFromYear (1600 + 400 * k) = dayFromYear 1600 + 146097 * k := by
  simp only [dayFromYear]
  omega

theorem yearSearch_bracket (fuel : Nat) (y z : Int)
    (hlo : dayFromYear y ≤ z) (hhi : z < dayFromYear (y + (fuel : Int) + 1)) :
    dayFromYear (yearSearch fuel y z) ≤ z ∧
      z < dayFromYear (yearSearch fuel y z + 1) := by
  induction fuel generalizing y with
  | zero => simpa [yearSearch] using ⟨hlo, by simpa using hhi⟩
  | succ n ih =>
    rw [yearSearch]
    split
    · rename_i h
      refine ih (y + 1) h ?_
      have e : y + 1 + (n : Int) + 1 = y + ((n : Int) + 1) + 1 := by ring
      rw [e]
      push_cast at hhi
      exact hhi
    · rename_i h
      exact ⟨hlo, by omega⟩

theorem yearFromDay_bracket (z : Int) :
    dayFromYear (yearFromDay z) ≤ z ∧ z < dayFromYear (yearFromDay z + 1) := by
  have h1600 : dayFromYear 1600 = -135140 := by decide
  simp only [yearFromDay, h1600]
  refine yearSearch_bracket 400 _ z ?_ ?_
  · simp only [dayFromYear]
    omega
  · push_cast
    simp only [dayFromYear]
    omega

theorem monthDayOf_spec (leap dwy : Int) :
    0 ≤ (monthDayOf leap dwy).1 ∧ (monthDayOf leap dwy).1 ≤ 11 ∧
      monthStartDay (monthDayOf leap dwy).1 +
          (if 2 ≤ (monthDayOf leap dwy).1 then leap else 0) +
          (monthDayOf leap dwy).2 - 1 = dwy := by
  rcases hmd : monthDayOf leap dwy with ⟨m, d⟩
  rw [monthDayOf] at hmd
  by_cases h0 : dwy < 31
  · rw [if_pos h0] at hmd
    simp only [Prod.mk.injEq] at hmd
    obtain ⟨rfl, rfl⟩ := hmd
    norm_num [monthStartDay]
    try omega
  · rw [if_neg h0] at hmd
    by_cases h1 : dwy < 59 + leap
    · rw [if_pos h1] at hmd
      simp only [Prod.mk.injEq] at hmd
      obtain ⟨rfl, rfl⟩ := hmd
      norm_num [monthStartDay]
      try omega
    · rw [if_neg h1] at hmd
      by_cases h2 : dwy < 90 + leap
      · rw [if_pos h2] at hmd
        simp only [Prod.mk.injEq] at hmd
        obtain ⟨rfl, rfl⟩ := hmd
        norm_num [monthStartDay]
        try omega
      · rw [if_neg h2] at hmd
        by_cases h3 : dwy < 120 + leap
        · rw [if_pos h3] at hmd
          simp only [Prod.mk.injEq] at hmd
          obtain ⟨rfl, rfl⟩ := hmd
          norm_num [monthStartDay]
          try omega
        · rw [if_neg h3] at hmd
          by_cases h4 : dwy < 151 + leap
          · rw [if_pos h4] at hmd
            simp only [Prod.mk.injEq] at hmd
            obtain ⟨rfl, rfl⟩ := hmd
            norm_num [monthStartDay]
            try omega
          · rw [if_neg h4] at hmd
            by_cases h5 : dwy < 181 + leap
            · rw [if_pos h5] at hmd
              simp only [Prod.mk.injEq] at hmd
              obtain ⟨rfl, rfl⟩ := hmd
              norm_num [monthStartDay]
              try omega
            · rw [if_neg h5] at hmd
              by_cases h6 : dwy < 212 + leap
              · rw [if_pos h6] at hmd
                simp only [Prod.mk.injEq] at hmd
                obtain ⟨rfl, rfl⟩ := hmd
                norm_num [monthStartDay]
                try omega
              · rw [if_neg h6] at hmd
                by_cases h7 : dwy < 243 + leap
                · rw [if_pos h7] at hmd
                  simp only [Prod.mk.injEq] at hmd
                  obtain ⟨rfl, rfl⟩ := hmd
                  norm_num [monthStartDay]
                  try omega
                · rw [if_neg h7] at hmd
                  by_cases h8 : dwy < 273 + leap
                  · rw [if_pos h8] at hmd
                    simp only [Prod.mk.injEq] at hmd
                    obtain ⟨rfl, rfl⟩ := hmd
                    norm_num [monthStartDay]
                    try omega
                  · rw [if_neg h8] at hmd
                    by_cases h9 : dwy < 304 + leap
                    · rw [if_pos h9] at hmd
                      simp only [Prod.mk.injEq] at hmd
                      obtain ⟨rfl, rfl⟩ := hmd
                      norm_num [monthStartDay]
                      try omega
                    · rw [if_neg h9] at hmd
                      by_cases h10 : dwy < 334 + leap
                      · rw [if_pos h10] at hmd
                        simp only [Prod.mk.injEq] at hmd
                        obtain ⟨rfl, rfl⟩ := hmd
                        norm_num [monthStartDay]
                        try omega
                      · rw [if_neg h10] at hmd
                        simp only [Prod.mk.injEq] at hmd
                        obtain ⟨rfl, rfl⟩ := hmd
                        norm_num [monthStartDay]
                        try omega

theorem makeDay_civilFromDays (z : Int) :
    makeDay (civilFromDays z).1 (civilFromDays z).2.1 (civilFromDays z).2.2 = z := by
  obtain ⟨h0, h11, hrec⟩ := monthDayOf_spec (leapDays (yearFromDay z))
    (z - dayFromYear (yearFromDay z))
  simp only [civilFromDays]
  simp only [makeDay]
  have hdiv : (monthDayOf (leapDays (yearFromDay z)) (z - dayFromYear (yearFromDay z))).1 / 12
      = 0 := by omega
  have hmod : (monthDayOf (leapDays (yearFromDay z)) (z - dayFromYear (yearFromDay z))).1 % 12
      = (monthDayOf (leapDays (yearFromDay z)) (z - dayFromYear (yearFromDay z))).1 := by omega
  rw [hdiv, hmod, add_zero]
  omega

theorem makeDay_add_days (y m0 d n : Int) :
    makeDay y m0 (d + n) = makeDay y m0 d + n := by
  simp only [makeDay]
  omega

/-! ## The time-zone rendering primitive

`getZonedParts(date, timeZone)` in `src/reclaim-client.ts` renders an
instant's wall clock in a zone through `Intl.DateTimeFormat` (second
precision, no fractional seconds).  A zone is modelled by its UTC-offset
function `Int → Int` (milliseconds to add to UTC to obtain local wall
clock time), the query interface of the tz database. -/

/-- Wall-clock parts as produced by the formatter in `getZonedParts`
(`month` is 1-based, second precision). -/
structure TimeParts where
  year : Int
  month : Int
  day : Int
  hour : Int
  minute : Int
  second : Int
deriving DecidableEq, Repr

/-- A time zone, given by its UTC-offset function (ms). -/
abbrev Zone := Int → Int

/-- Calendar parts of a UTC instant `t` (ms), at second precision: the
fractional second is discarded, exactly as the formatter output used by
`getZonedParts` carries no fractional seconds. -/
def utcMillisToParts (t : Int) : TimeParts :=
  let day := t / 86400000
  let tod := t % 86400000
  let c := civilFromDays day
  { year := c.1, month := c.2.1 + 1, day := c.2.2,
    hour := tod / 3600000, minute := tod % 3600000 / 60000,
    second := tod % 60000 / 1000 }

/-- `getZonedParts` of `src/reclaim-client.ts`: render instant `t` in the
zone. -/
def getZonedParts (zone : Zone) (t : Int) : TimeParts :=
  utcMillisToParts (t + zone t)

/-- `partsToUtcMillis` of `src/reclaim-client.ts`:
`Date.UTC(year, month - 1, day, hour, minute, second)`. -/
def partsToUtcMillis (p : TimeParts) : Int :=
  dateUTC p.year (p.month - 1) p.day p.hour p.minute p.second 0

/-- `partsMatch` of `src/reclaim-client.ts`. -/
def partsMatch (a b : TimeParts) : Bool :=
  a.year == b.year && a.month == b.month && a.day == b.day &&
    a.hour == b.hour && a.minute == b.minute && a.second == b.second

/-- `getTimeZoneOffset` of `src/reclaim-client.ts`. -/
def getTimeZoneOffset (zone : Zone) (t : Int) : Int :=
  partsToUtcMillis (getZonedParts zone t) - t

/-- One candidate of `zonedTimeToUtc`: a UTC instant and its rendered
wall clock in the target zone. -/
structure Cand where
  date : Int
  parts : TimeParts
deriving DecidableEq, Repr

/-- Insertion into a JavaScript `Set` (kept in insertion order, no
duplicates), as materialized by `Array.from`. -/
def insertUnique (xs : List Int) (x : Int) : List Int :=
  if x ∈ xs then xs else xs ++ [x]

/-- The probed offset set of `zonedTimeToUtc` (lines 492-501 of
`src/reclaim-client.ts`): the offset at the naive guess, plus the offsets
at the guess corrected by that offset and at ±1 hour around the corrected
guess.  The JavaScript `for (const offset of Array.from(offsets))` loop
iterates over a snapshot holding the single initial offset, so exactly
one correction round runs. -/
def zOffsets (zone : Zone) (guess : Int) : List Int :=
  let o0 := getTimeZoneOffset zone guess
  let cand0 := guess - o0
  insertUnique
    (insertUnique
      (insertUnique [o0] (getTimeZoneOffset zone cand0))
      (getTimeZoneOffset zone (cand0 + 3600000)))
    (getTimeZoneOffset zone (cand0 - 3600000))

/-- The candidate list of `zonedTimeToUtc` (lines 503-506). -/
def zCandidates (zone : Zone) (guess : Int) : List Cand :=
  (zOffsets zone guess).map fun o =>
    { date := guess - o, parts := getZonedParts zone (guess - o) }

/-- The at-or-after selection fold of `zonedTimeToUtc` (lines 529-535 of
`src/reclaim-client.ts`): among candidates rendering at-or-after the
desired naive timestamp `dn`, keep the one with the least excess,
breaking ties toward the earlier instant (the JavaScript
`sort((a, b) => (aKey - bKey) || (a.date - b.date))[0]`). -/
def pickAfter (dn : Int) (c : Cand) (cs : List Cand) : Cand :=
  cs.foldl (fun best x =>
    if partsToUtcMillis x.parts - dn < partsToUtcMillis best.parts - dn then x
    else if partsToUtcMillis x.parts - dn = partsToUtcMillis best.parts - dn ∧
        x.date < best.date then x
    else best) c

/-- `zonedTimeToUtc` of `src/reclaim-client.ts`: resolve wall-clock
components in a zone to a UTC instant.  The three selection stages
mirror the source: the earliest exact wall-clock match; otherwise the
candidate rendering at-or-after the desired naive timestamp with the
least excess (ties to the earlier instant); otherwise the candidate with
the least absolute wall-clock difference.  Each JavaScript
sort-then-take-first is realized as a fold keeping the first minimum,
which picks the same element as the stable sort. -/
def zonedTimeToUtc (y m d h mi s ms : Int) (zone : Zone) : Int :=
  let desired : TimeParts := ⟨y, m, d, h, mi, s⟩
  let guess := dateUTC y (m - 1) d h mi s ms
  let candidates := zCandidates zone guess
  let matching := candidates.filter fun c => partsMatch c.parts desired
  match matching with
  | c :: cs => (cs.foldl (fun best x => if x.date < best.date then x else best) c).date
  | [] =>
    let desiredNaive := partsToUtcMillis desired
    let after := candidates.filter fun c => desiredNaive ≤ partsToUtcMillis c.parts
    match after with
    | c :: cs => (pickAfter desiredNaive c cs).date
    | [] =>
      match candidates with
      | [] => guess
      | c :: cs =>
          (cs.foldl (fun best x =>
            if |partsToUtcMillis x.parts - desiredNaive| <
                |partsToUtcMillis best.parts - desiredNaive| then x
            else best) c).date

/-! ## America/Los_Angeles, 2026

Model of the tz database entry consumed through `Intl.DateTimeFormat`,
restricted to the year 2026 (IANA tzdata: standard offset −08:00,
daylight −07:00 between 2026-03-08T10:00Z and 2026-11-01T09:00Z).  All
concrete scenarios below probe instants well inside 2026. -/

def laSpringUtc : Int := dateUTC 2026 2 8 10 0 0 0

def laFallUtc : Int := dateUTC 2026 10 1 9 0 0 0

def zoneLA : Zone := fun t =>
  if t < laSpringUtc then -28800000
  else if t < laFallUtc then -25200000
  else -28800000

/-! ## ISO 8601 serialization -/

/-- Left-pad the decimal rendering of a nonnegative integer with zeros. -/
def padZero (width : Nat) (n : Int) : String :=
  let s := toString n
  ⟨List.replicate (width - s.length) '0'⟩ ++ s

/-- Model of `Date.prototype.toISOString` for instants with year
0-9999. -/
def toISOString (t : Int) : String :=
  let day := t / 86400000
  let tod := t % 86400000
  let c := civilFromDays day
  padZero 4 c.1 ++ "-" ++ padZero 2 (c.2.1 + 1) ++ "-" ++ padZero 2 c.2.2 ++
    "T" ++ padZero 2 (tod / 3600000) ++ ":" ++ padZero 2 (tod % 3600000 / 60000) ++
    ":" ++ padZero 2 (tod % 60000 / 1000) ++ "." ++ padZero 3 (tod % 1000) ++ "Z"

/-! ## Grammar recognition

`HAS_TIMEZONE_REGEX` and `LOCAL_DATETIME_REGEX` of
`src/reclaim-client.ts`, as character-level parsers. -/

/-- Whether the reversed character list starts with an offset
`[+-]\\d{2}:\\d{2}`. -/
def offsetSuffix : List Char → Bool
  | m2 :: m1 :: c0 :: h2 :: h1 :: sg :: _ =>
      (sg == '+' || sg == '-') && h1.isDigit && h2.isDigit && c0 == ':' &&
        m1.isDigit && m2.isDigit
  | _ => false

/-- `HAS_TIMEZONE_REGEX.test`: the string ends in `z`, `Z` or a
`±hh:mm` offset. -/
def hasTimezoneSuffix (s : String) : Bool :=
  match s.data.reverse with
  | [] => false
  | c :: _ => c == 'z' || c == 'Z' || offsetSuffix s.data.reverse

/-- Consume exactly `n` decimal digits. -/
def takeDigits : Nat → List Char → Option (List Char × List Char)
  | 0, rest => some ([], rest)
  | _ + 1, [] => none
  | n + 1, c :: rest =>
      if c.isDigit then (takeDigits n rest).map fun p => (c :: p.1, p.2)
      else none

/-- The seven numeric components extracted by `parseDeadline` from a
`LOCAL_DATETIME_REGEX` match, with absent optional groups already
defaulted to zero as in the source (`hourRaw ? Number(hourRaw) : 0`,
millisecond group right-padded to three digits). -/
structure LocalMatch where
  year : Int
  month : Int
  day : Int
  hour : Int
  minute : Int
  second : Int
  millisecond : Int
deriving DecidableEq, Repr

/-- Anchored match of `LOCAL_DATETIME_REGEX`
(`^(\\d{4})-(\\d{2})-(\\d{2})(?:[T\\s](\\d{2})(?::(\\d{2})(?::(\\d{2})(?:\\.(\\d{1,3}))?)?)?)?$`). -/
def parseLocalDateTime (s : String) : Option LocalMatch := do
  let (y, r1) ← takeDigits 4 s.data
  match r1 with
  | '-' :: r2 =>
    let (mo, r3) ← takeDigits 2 r2
    match r3 with
    | '-' :: r4 =>
      let (d, r5) ← takeDigits 2 r4
      let yv := digitsToInt y
      let mov := digitsToInt mo
      let dv := digitsToInt d
      match r5 with
      | [] => some ⟨yv, mov, dv, 0, 0, 0, 0⟩
      | sep :: r6 =>
        if sep == 'T' || jsSpaceChar sep then
          let (h, r7) ← takeDigits 2 r6
          match r7 with
          | [] => some ⟨yv, mov, dv, digitsToInt h, 0, 0, 0⟩
          | ':' :: r8 =>
            let (mi, r9) ← takeDigits 2 r8
            match r9 with
            | [] => some ⟨yv, mov, dv, digitsToInt h, digitsToInt mi, 0, 0⟩
            | ':' :: r10 =>
              let (se, r11) ← takeDigits 2 r10
              match r11 with
              | [] => some ⟨yv, mov, dv, digitsToInt h, digitsToInt mi, digitsToInt se, 0⟩
              | '.' :: r12 =>
                if r12 ≠ [] ∧ r12.length ≤ 3 ∧ r12.all Char.isDigit then
                  some ⟨yv, mov, dv, digitsToInt h, digitsToInt mi, digitsToInt se,
                    digitsToInt (r12 ++ List.replicate (3 - r12.length) '0')⟩
                else none
              | _ => none
            | _ => none
          | _ => none
        else none
    | _ => none
  | _ => none

/-- The composite roll-over check of `assertValidLocalDateTime`: rebuild
the components through `Date.UTC` and compare every `getUTC*` accessor
(February 30 rolls over to March 2 and is caught here). -/
def utcCheckFails (p : LocalMatch) : Bool :=
  let t := dateUTC p.year (p.month - 1) p.day p.hour p.minute p.second p.millisecond
  let c := civilFromDays (t / 86400000)
  c.1 != p.year || c.2.1 + 1 != p.month || c.2.2 != p.day ||
    t % 86400000 / 3600000 != p.hour || t % 86400000 % 3600000 / 60000 != p.minute ||
    t % 86400000 % 60000 / 1000 != p.second || t % 1000 != p.millisecond

/-- `assertValidLocalDateTime` of `src/reclaim-client.ts`: range checks on
every component, then rejection of composite roll-over through a
`Date.UTC` round trip (`getUTC*` accessors).  The `Number.isInteger`
guards of the source are vacuous here because the components are `Int` by
construction. -/
def assertValidLocalDateTime (p : LocalMatch) (originalInput : String) :
    Except String Unit :=
  if p.month < 1 ∨ p.month > 12 then
    .error ("Invalid month in date/time: \"" ++ originalInput ++ "\"")
  else if p.day < 1 ∨ p.day > 31 then
    .error ("Invalid day in date/time: \"" ++ originalInput ++ "\"")
  else if p.hour < 0 ∨ p.hour > 23 then
    .error ("Invalid hour in date/time: \"" ++ originalInput ++ "\"")
  else if p.minute < 0 ∨ p.minute > 59 then
    .error ("Invalid minute in date/time: \"" ++ originalInput ++ "\"")
  else if p.second < 0 ∨ p.second > 59 then
    .error ("Invalid second in date/time: \"" ++ originalInput ++ "\"")
  else if p.millisecond < 0 ∨ p.millisecond > 999 then
    .error ("Invalid milliseconds in date/time: \"" ++ originalInput ++ "\"")
  else if utcCheckFails p then
    .error ("Invalid date/time: \"" ++ originalInput ++ "\"")
  else .ok ()

/-! ## The environment `Date` parser

`parseDeadline` hands offset-carrying strings (and strings matching
neither regex) to `new Date(string)`.  `isoParse` models the ECMAScript
Date Time String Format, the only normatively specified input syntax:
`YYYY-MM-DD[THH:mm[:ss[.sss]][Z|±hh:mm]]`, with a date-only form read as
UTC and rolled-over calendar components rejected.  Behaviour of the host
parser on strings outside this grammar is implementation-defined and is
kept abstract: the theorems below take the parse function as a
parameter. -/

/-- Milliseconds of a calendar date-time with an explicit UTC offset.
Unlike `Date.UTC`, string parsing applies no two-digit-year rule. -/
def isoInstant (y mo d h mi s ms off : Int) : Int :=
  makeDay y (mo - 1) d * 86400000 + h * 3600000 + mi * 60000 + s * 1000 + ms - off

/-- Validity of the calendar components of a Date Time String Format
string: ranges plus no roll-over (February 30 is rejected). -/
def isoValidDate (y mo d : Int) : Bool :=
  1 ≤ mo && mo ≤ 12 && 1 ≤ d && d ≤ 31 &&
    civilFromDays (makeDay y (mo - 1) d) == (y, mo - 1, d)

/-- Offset suffix of a Date Time String Format string, in milliseconds:
empty (`none` when a time is present: interpretation of offset-less
date-times is host-zone dependent and unreachable from `parseDeadline`),
`Z`, or `±hh:mm`. -/
def isoParseOffset (cs : List Char) : Option Int :=
  match cs with
  | [] => none
  | ['z'] => some 0
  | ['Z'] => some 0
  | [sg, h1, h2, c0, m1, m2] =>
      if (sg == '+' || sg == '-') && h1.isDigit && h2.isDigit && c0 == ':' &&
          m1.isDigit && m2.isDigit then
        let v := (digitsToInt [h1, h2] * 60 + digitsToInt [m1, m2]) * 60000
        if digitsToInt [h1, h2] ≤ 23 && digitsToInt [m1, m2] ≤ 59 then
          some (if sg == '-' then -v else v)
        else none
      else none
  | _ => none

/-- Model of `new Date(string)` on the ECMAScript Date Time String
Format, returning the instant in milliseconds (`none` = Invalid Date). -/
def isoParse (str : String) : Option Int := do
  let (y, r1) ← takeDigits 4 str.data
  match r1 with
  | '-' :: r2 =>
    let (mo, r3) ← takeDigits 2 r2
    match r3 with
    | '-' :: r4 =>
      let (d, r5) ← takeDigits 2 r4
      let yv := digitsToInt y
      let mov := digitsToInt mo
      let dv := digitsToInt d
      if isoValidDate yv mov dv then
        match r5 with
        | [] => some (isoInstant yv mov dv 0 0 0 0 0)
        | 'T' :: r6 =>
          let (h, r7) ← takeDigits 2 r6
          match r7 with
          | ':' :: r8 =>
            let (mi, r9) ← takeDigits 2 r8
            let hv := digitsToInt h
            let miv := digitsToInt mi
            if hv ≤ 23 && miv ≤ 59 then
              match r9 with
              | ':' :: r10 =>
                let (se, r11) ← takeDigits 2 r10
                let sev := digitsToInt se
                if sev ≤ 59 then
                  match r11 with
                  | '.' :: rest =>
                    let (msd, r13) ← takeDigits 3 rest
                    let off ← isoParseOffset r13
                    some (isoInstant yv mov dv hv miv sev (digitsToInt msd) off)
                  | rest => do
                    let off ← isoParseOffset rest
                    some (isoInstant yv mov dv hv miv sev 0 off)
                else none
              | rest => do
                let off ← isoParseOffset rest
                some (isoInstant yv mov dv hv miv 0 0 off)
            else none
          | _ => none
        | _ => none
      else none
    | _ => none
  | _ => none

/-! ## The host zone and the relative-day path

The numeric branch of `parseDeadline` runs
`deadline.setDate(deadline.getDate() + n)`: a calendar-day shift in the
machine's local time zone.  Per ECMAScript, `setDate` decomposes
`LocalTime(t)`, replaces the day-of-month, and converts back with
`UTC(t)`, which resolves skipped or repeated local times to the offset
from before the transition.  A host zone therefore carries both offset
functions `LocalTZA(t, true)` and `LocalTZA(t, false)`. -/

structure JsLocalZone where
  utcOffset : Zone
  localOffset : Zone

/-- A host zone with a constant UTC offset (no DST), e.g. `TZ=UTC`. -/
def fixedZone (c : Int) : JsLocalZone :=
  { utcOffset := fun _ => c, localOffset := fun _ => c }

/-- America/Los_Angeles as a host zone in 2026.  On the local-time side,
the offset from before the transition applies to the skipped hour
(02:00-03:00 on Mar 8, PST) and to the repeated hour (01:00-02:00 on
Nov 1, PDT), per the ECMAScript `LocalTZA(t, false)` rule. -/
def laHost : JsLocalZone :=
  { utcOffset := zoneLA,
    localOffset := fun L =>
      if L < dateUTC 2026 2 8 3 0 0 0 then -28800000
      else if L < dateUTC 2026 10 1 2 0 0 0 then -25200000
      else -28800000 }

/-- The numeric branch of `parseDeadline` (lines 556-568 of
`src/reclaim-client.ts`): `deadline.setDate(deadline.getDate() + n)`,
evaluated at instant `now` in host zone `host`. -/
def relativeDays (host : JsLocalZone) (now n : Int) : Int :=
  let L := now + host.utcOffset now
  let day := L / 86400000
  let tod := L % 86400000
  let c := civilFromDays day
  let newLocal := makeDay c.1 c.2.1 (c.2.2 + n) * 86400000 + tod
  newLocal - host.localOffset newLocal

/-- A deadline argument: days-from-now or a date/time string
(`number | string`). -/
inductive DeadlineInput where
  | num (n : Int)
  | str (s : String)
deriving DecidableEq, Repr

/-- `parseDeadline` of `src/reclaim-client.ts`.  `jsParse` is the host
`new Date(string)` parser (see `isoParse`), `host` the machine zone used
by `setDate`, `now` the evaluation instant, and `zone` the time zone
produced by `resolveTimeZone` (always available in practice through the
`Intl` fallback, and validated by `assertValidTimeZone`; the dead branch
using the zone-less local `Date` constructor is not modelled). -/
def parseDeadline (jsParse : String → Option Int) (host : JsLocalZone)
    (now : Int) (input : Option DeadlineInput) (zone : Zone) :
    Except String String :=
  match input with
  | some (.num n) =>
      if n ≤ 0 then .ok (toISOString now)
      else .ok (toISOString (relativeDays host now n))
  | some (.str s) =>
      let trimmed := jsTrim s
      if hasTimezoneSuffix trimmed then
        match jsParse trimmed with
        | some t => .ok (toISOString t)
        | none => .error ("Invalid date format: \"" ++ s ++ "\"")
      else
        match parseLocalDateTime trimmed with
        | some p =>
          match assertValidLocalDateTime p s with
          | .error e => .error e
          | .ok _ => .ok (toISOString (zonedTimeToUtc p.year p.month p.day
              p.hour p.minute p.second p.millisecond zone))
        | none =>
          match jsParse trimmed with
          | some t => .ok (toISOString t)
          | none => .error ("Invalid date format: \"" ++ s ++ "\"")
  | none => .ok (toISOString (relativeDays host now 1))

/-! ## Enumeration canonicalization

`normalizeEnumValue`, `normalizeEventCategory`, `normalizePriority`,
`normalizeEventSubType`, `inferCategoryFromSubType` of
`src/reclaim-client.ts`. -/

/-- ASCII uppercase, modelling `String.prototype.toUpperCase` on the
ASCII inputs the enumeration tables use. -/
def jsUpper (s : String) : String :=
  ⟨s.data.map Char.toUpper⟩

/-- A character of the regex class `[\\s-]`. -/
def isSepChar (c : Char) : Bool :=
  jsSpaceChar c || c == '-'

/-- `replace(/[\\s-]+/g, "_")`: each maximal run of separators becomes a
single underscore.  The flag records whether the previous character was a
separator. -/
def collapseSepAux : Bool → List Char → List Char
  | _, [] => []
  | prevSep, c :: cs =>
    if isSepChar c then
      if prevSep then collapseSepAux true cs
      else '_' :: collapseSepAux true cs
    else c :: collapseSepAux false cs

def collapseSep (s : String) : String :=
  ⟨collapseSepAux false s.data⟩

/-- `normalizeEnumValue`: falsy input (absent or empty) gives `none`,
otherwise trim, uppercase and collapse separators. -/
def normalizeEnumValue (value : Option String) : Option String :=
  match value with
  | none => none
  | some s => if s = "" then none else some (collapseSep (jsUpper (jsTrim s)))

def EVENT_CATEGORIES : List String := ["WORK", "PERSONAL"]

def EVENT_SUBTYPES : List String :=
  ["ONE_ON_ONE", "STAFF_MEETING", "OP_REVIEW", "EXTERNAL", "IDEATION",
   "FOCUS", "PRODUCTIVITY", "TRAVEL", "FLIGHT", "TRAIN", "RECLAIM",
   "VACATION", "HEALTH", "ERRAND", "OTHER_PERSONAL", "UNKNOWN"]

def EVENT_SUBTYPE_ALIASES : List (String × String) :=
  [("MEETING", "STAFF_MEETING"), ("1ON1", "ONE_ON_ONE"),
   ("ONEONONE", "ONE_ON_ONE"), ("ONE-ON-ONE", "ONE_ON_ONE"),
   ("ONE_ON_ONE", "ONE_ON_ONE"), ("PERSONAL", "OTHER_PERSONAL"),
   ("ERRANDS", "ERRAND"), ("FOCUS_TIME", "FOCUS")]

def PERSONAL_SUBTYPES : List String :=
  ["OTHER_PERSONAL", "ERRAND", "HEALTH", "VACATION"]

/-- JavaScript truthiness of an optional string. -/
def strTruthy : Option String → Bool
  | none => false
  | some s => s != ""

/-- The nullish coalescing `a ?? b` on optional strings (an empty string
is kept). -/
def jsNullish (a b : Option String) : Option String :=
  match a with
  | some x => some x
  | none => b

def normalizeEventCategory (value fallback : Option String) : String :=
  match normalizeEnumValue (jsNullish value fallback) with
  | some n => if n ≠ "" ∧ EVENT_CATEGORIES.contains n then n else "WORK"
  | none => "WORK"

def inferCategoryFromSubType (subType : Option String) : Option String :=
  match normalizeEnumValue subType with
  | some n => if n ≠ "" ∧ PERSONAL_SUBTYPES.contains n then some "PERSONAL" else none
  | none => none

def normalizePriority (value fallback : Option String) : String :=
  match normalizeEnumValue (jsNullish value fallback) with
  | some n =>
    if n = "" then "P3"
    else if n = "P1" ∨ n = "P2" ∨ n = "P3" ∨ n = "P4" then n
    else if n = "DEFAULT" then
      match normalizeEnumValue fallback with
      | some f =>
          if f = "P1" ∨ f = "P2" ∨ f = "P3" ∨ f = "P4" then f
          else if n = "PRIORITIZE" then "P1" else "P3"
      | none => if n = "PRIORITIZE" then "P1" else "P3"
    else if n = "PRIORITIZE" then "P1"
    else "P3"
  | none => "P3"

def normalizeEventSubType (value : Option String) (eventCategory : String) : String :=
  let fallbackTag := if eventCategory = "PERSONAL" then "OTHER_PERSONAL" else "FOCUS"
  match normalizeEnumValue value with
  | some n =>
    if n = "" then fallbackTag
    else if EVENT_SUBTYPES.contains n then n
    else match EVENT_SUBTYPE_ALIASES.lookup n with
      | some tag => if EVENT_SUBTYPES.contains tag then tag else fallbackTag
      | none => fallbackTag
  | none => fallbackTag

/-! ## Task records

`TaskInputData` is declared in `src/types/reclaim.ts`, which is not part
of the source snapshot; the fields here are exactly the ones the
embedded functions of `src/reclaim-client.ts` and `src/tools/taskCrud.ts`
read or write, plus the remaining pass-through fields of the tool
schema, every one optional as in the source.  `TaskDefaults` mirrors the
type alias in `src/reclaim-client.ts` (a `null` in the
`number | null` / `string | null` fields behaves exactly like an absent
field in every embedded function and is collapsed to `none`). -/

structure TaskInputData where
  title : Option String := none
  notes : Option String := none
  eventCategory : Option String := none
  eventSubType : Option String := none
  priority : Option String := none
  timeChunksRequired : Option Int := none
  minChunkSize : Option Int := none
  maxChunkSize : Option Int := none
  onDeck : Option Bool := none
  alwaysPrivate : Option Bool := none
  timeSchemeId : Option String := none
  status : Option String := none
  eventColor : Option String := none
  due : Option DeadlineInput := none
  deadline : Option DeadlineInput := none
  snoozeUntil : Option DeadlineInput := none
deriving DecidableEq, Repr

/-- The tool-layer input (`TaskToolInput` of `src/tools/taskCrud.ts`):
the task fields plus the minute-denominated convenience fields that
`normalizeChunkInputs` converts and deletes. -/
structure TaskToolInput where
  base : TaskInputData := {}
  durationMinutes : Option Int := none
  minDurationMinutes : Option Int := none
  maxDurationMinutes : Option Int := none
  lockChunkSizeToDuration : Option Bool := none
  startTime : Option String := none
  timeZone : Option String := none
  timezone : Option String := none
deriving DecidableEq, Repr

structure TaskDefaults where
  timeChunksRequired : Option Int := none
  commsTimeChunksRequired : Option Int := none
  delayedStartInMinutes : Option Int := none
  dueInDays : Option Int := none
  category : Option String := none
  alwaysPrivate : Option Bool := none
  minChunkSize : Option Int := none
  maxChunkSize : Option Int := none
  timeSchemeId : Option String := none
  priority : Option String := none
  onDeck : Option Bool := none
  splitUp : Option Bool := none
  googleTaskIntegrationNoDueDateWhenMissing : Option Bool := none
deriving DecidableEq, Repr

/-! ## Duration normalization (`src/tools/taskCrud.ts`) -/

/-- `minutesToChunks`: exact division by the 15-minute chunk unit,
rejecting any remainder.  JavaScript `%` is the truncated remainder; it
is zero exactly when the floor remainder `%` used here is, and on exact
multiples the quotients agree, so `Int` division is faithful. -/
def minutesToChunks (value : Int) (field : String) : Except String Int :=
  if value % 15 ≠ 0 then
    .error (field ++ " must be a multiple of 15 minutes. Example: 60 minutes = 4 chunks.")
  else .ok (value / 15)

/-- Replace the three chunk fields of a record. -/
def setChunks (t : TaskInputData) (tcr minC maxC : Option Int) : TaskInputData :=
  { t with timeChunksRequired := tcr, minChunkSize := minC, maxChunkSize := maxC }

/-- One minute-denominated field: convert when supplied, else keep the
already-present chunk value. -/
def chunkField (explicitMinutes : Option Int) (fieldName : String)
    (fallback : Option Int) : Except String (Option Int) :=
  match explicitMinutes with
  | some v =>
    match minutesToChunks v fieldName with
    | .error e => .error e
    | .ok q => .ok (some q)
  | none => .ok fallback

/-- `normalizeChunkInputs` of `src/tools/taskCrud.ts`: convert the
minute-denominated fields in source order (`durationMinutes`,
`minDurationMinutes`, `maxDurationMinutes`), then apply the
lock-to-duration override; the tool-only fields are dropped by returning
only the task record. -/
def normalizeChunkInputs (input : TaskToolInput) : Except String TaskInputData :=
  match chunkField input.durationMinutes ("durationMinutes") input.base.timeChunksRequired with
  | .error e => .error e
  | .ok tcr =>
    match chunkField input.minDurationMinutes ("minDurationMinutes") input.base.minChunkSize with
    | .error e => .error e
    | .ok minC =>
      match chunkField input.maxDurationMinutes ("maxDurationMinutes") input.base.maxChunkSize with
      | .error e => .error e
      | .ok maxC =>
        if input.lockChunkSizeToDuration = some true then
          match tcr with
          | none => .error ("lockChunkSizeToDuration requires timeChunksRequired or durationMinutes.")
          | some t => .ok (setChunks input.base (some t) (some t) (some t))
        else .ok (setChunks input.base tcr minC maxC)

/-- `validateChunkSizes` of `src/reclaim-client.ts`. -/
def validateChunkSizes (payload : TaskInputData) : Except String Unit :=
  match payload.minChunkSize, payload.maxChunkSize with
  | some minC, some maxC =>
      if minC > maxC then
        .error ("minChunkSize (" ++ toString minC ++
          ") cannot be greater than maxChunkSize (" ++ toString maxC ++ ").")
      else .ok ()
  | _, _ => .ok ()

/-! ## Create-flow defaulting (`applyTaskDefaultsForCreate`) -/

/-- Enum, boolean, notes and scheme defaulting of
`applyTaskDefaultsForCreate` (lines 672-710 of `src/reclaim-client.ts`).
The source mutates `output` field by field; since no step reads a field
an earlier step wrote, the new values are computed from the input and
written in one update.  Assigning an absent default
(`output.x = undefined`) is identical to skipping the assignment, so
those guards are folded. -/
def applyCreateEnums (t : TaskInputData) (d : TaskDefaults) : TaskInputData :=
  let inferred := if t.eventCategory = none
    then inferCategoryFromSubType t.eventSubType else none
  let cat := normalizeEventCategory t.eventCategory (jsNullish inferred d.category)
  let sub := normalizeEventSubType t.eventSubType cat
  let pri := normalizePriority t.priority d.priority
  let onD := if t.onDeck = none then d.onDeck else t.onDeck
  let priv := if t.alwaysPrivate = none then d.alwaysPrivate else t.alwaysPrivate
  let notes := if strTruthy t.notes then t.notes else some ""
  let scheme := match t.timeSchemeId, d.timeSchemeId with
    | none, some s => if jsTrim s ≠ "" then some s else none
    | x, _ => x
  let o := { t with eventCategory := some cat }
  let o := { o with eventSubType := some sub }
  let o := { o with priority := some pri }
  let o := { o with onDeck := onD }
  let o := { o with alwaysPrivate := priv }
  let o := { o with notes := notes }
  { o with timeSchemeId := scheme }

/-- The total-chunk fallback chain of `applyTaskDefaultsForCreate`
(lines 712-732): the account default when positive, else the larger of
the explicit bounds when positive, else a single chunk. -/
def createTotalChunks (o : TaskInputData) (defaults : TaskDefaults) : Int :=
  let tcr1 : Option Int := match o.timeChunksRequired, defaults.timeChunksRequired with
    | none, some v => if v > 0 then some v else none
    | t, _ => t
  let tcr2 : Option Int := match tcr1 with
    | none =>
        let derived := max (o.minChunkSize.getD 0) (o.maxChunkSize.getD 0)
        if derived > 0 then some derived else none
    | t => t
  tcr2.getD 1

/-- Bound defaulting, clamping to the total and the min-over-max repair
of `applyTaskDefaultsForCreate` (lines 734-783), in value-level form
(the clamp and repair steps read the bounds written by the earlier
steps, threaded here explicitly).  The clamp guard
`output.timeChunksRequired !== undefined` always holds because the total
was just set. -/
def applyCreateChunks (o : TaskInputData) (d : TaskDefaults) (tcrF : Int) :
    TaskInputData :=
  let min1 := match o.minChunkSize, d.minChunkSize with
    | none, some v => if v > 0 then some v else none
    | m, _ => m
  let max1 := match o.maxChunkSize, d.maxChunkSize with
    | none, some v => if v > 0 then some v else none
    | m, _ => m
  let min2 := if min1 = none then some (min tcrF 1) else min1
  let max2 := if max1 = none then some tcrF else max1
  let min3 := match min2 with
    | some m => some (min m tcrF)
    | none => none
  let max3 := match max2 with
    | some m => some (min m tcrF)
    | none => none
  let max4 := match min3, max3 with
    | some a, some b => if a > b then some a else some b
    | _, b => b
  let r := { o with timeChunksRequired := some tcrF }
  let r := { r with minChunkSize := min3 }
  { r with maxChunkSize := max4 }

/-- `applyTaskDefaultsForCreate` of `src/reclaim-client.ts` (lines
668-784), assembled from the three stages above in source order. -/
def applyTaskDefaultsForCreate (taskData : TaskInputData) (defaults : TaskDefaults) :
    TaskInputData :=
  applyCreateChunks (applyCreateEnums taskData defaults) defaults
    (createTotalChunks (applyCreateEnums taskData defaults) defaults)

/-! ## Patch-flow normalization (`normalizeTaskPatch`) -/

/-- `normalizeTaskPatch` of `src/reclaim-client.ts` (lines 786-843):
only fields the caller supplied are normalized, an empty `timeSchemeId`
is dropped, present bounds are clamped to a present total, and a
min-over-max conflict is repaired by raising the maximum.  Value-level
form of the source's sequential mutation: the sub-type step reads the
category written by the first step, and the repair reads the clamped
bounds, both threaded explicitly.  The
`typeof output.timeSchemeId !== "string"` disjunct of the deletion guard
is vacuous here because a present `timeSchemeId` is a string by
construction. -/
def normalizeTaskPatch (t : TaskInputData) (d : TaskDefaults) : TaskInputData :=
  let cat := if strTruthy t.eventCategory
    then some (normalizeEventCategory t.eventCategory d.category)
    else t.eventCategory
  let sub := if strTruthy t.eventSubType
    then
      let category := if strTruthy cat
        then normalizeEventCategory cat none
        else normalizeEventCategory none
          (jsNullish (inferCategoryFromSubType t.eventSubType) d.category)
      some (normalizeEventSubType t.eventSubType category)
    else t.eventSubType
  let pri := if strTruthy t.priority
    then some (normalizePriority t.priority d.priority)
    else t.priority
  let scheme := match t.timeSchemeId with
    | some s => if s = "" then none else some s
    | none => none
  let minC := match t.timeChunksRequired, t.minChunkSize with
    | some tc, some m => some (min m tc)
    | _, _ => t.minChunkSize
  let maxC0 := match t.timeChunksRequired, t.maxChunkSize with
    | some tc, some m => some (min m tc)
    | _, _ => t.maxChunkSize
  let maxC := match minC, maxC0 with
    | some a, some b => if a > b then some a else some b
    | _, b => b
  let o := { t with eventCategory := cat }
  let o := { o with eventSubType := sub }
  let o := { o with priority := pri }
  let o := { o with timeSchemeId := scheme }
  let o := { o with minChunkSize := minC }
  { o with maxChunkSize := maxC }

/-! ## Tool flows

The chunk-normalization slice of `createTask` / `updateTask` as invoked
by the `reclaim_create_task` / `reclaim_update_task` tools: the tool
layer converts minute fields (`normalizeChunkInputs`), the client
applies defaults (`applyTaskDefaultsForCreate`) or patch normalization
(`normalizeTaskPatch`) and then `validateChunkSizes`.  The deadline /
snooze date resolution that `createTask` and `updateTask` also perform
touches no chunk field and is modelled separately by `parseDeadline`. -/

def createTaskNormalize (input : TaskToolInput) (defaults : TaskDefaults) :
    Except String TaskInputData :=
  match normalizeChunkInputs input with
  | .error e => .error e
  | .ok d =>
    match validateChunkSizes (applyTaskDefaultsForCreate d defaults) with
    | .error e => .error e
    | .ok _ => .ok (applyTaskDefaultsForCreate d defaults)

def updateTaskNormalize (input : TaskToolInput) (defaults : TaskDefaults) :
    Except String TaskInputData :=
  match normalizeChunkInputs input with
  | .error e => .error e
  | .ok d =>
    match validateChunkSizes (normalizeTaskPatch d defaults) with
    | .error e => .error e
    | .ok _ => .ok (normalizeTaskPatch d defaults)

/-! ## Generic selection lemmas

The JavaScript sort-then-take-first / running-minimum loops of
`zonedTimeToUtc` are folds keeping the first minimum; these lemmas give
membership and minimality of such folds. -/

theorem foldl_pick_mem {α : Type} (f : α → α → α)
    (hf : ∀ b x, f b x = b ∨ f b x = x) (c : α) (cs : List α) :
    cs.foldl f c ∈ c :: cs := by
  induction cs generalizing c with
  | nil => simp
  | cons a as ih =>
    simp only [List.foldl_cons]
    rcases hf c a with h1 | h1 <;> rw [h1]
    · rcases List.mem_cons.mp (ih c) with h2 | h2 <;> simp [List.mem_cons, h2]
    · rcases List.mem_cons.mp (ih a) with h2 | h2 <;> simp [List.mem_cons, h2]

theorem foldl_pick_le {α : Type} (key : α → Int) (f : α → α → α)
    (hf : ∀ b x, key (f b x) ≤ key b ∧ key (f b x) ≤ key x) (c : α) (cs : List α) :
    ∀ x ∈ c :: cs, key (cs.foldl f c) ≤ key x := by
  induction cs generalizing c with
  | nil =>
    intro x hx
    rcases List.mem_cons.mp hx with rfl | hx1
    · simp
    · simp at hx1
  | cons a as ih =>
    intro x hx
    simp only [List.foldl_cons]
    rcases List.mem_cons.mp hx with rfl | hx1
    · exact le_trans (ih (f x a) (f x a) (List.mem_cons_self _ _)) (hf x a).1
    · rcases List.mem_cons.mp hx1 with rfl | hx2
      · exact le_trans (ih (f c x) (f c x) (List.mem_cons_self _ _)) (hf c x).2
      · exact ih (f c a) x (List.mem_cons_of_mem _ hx2)

theorem pickAfter_mem (dn : Int) (c : Cand) (cs : List Cand) :
    pickAfter dn c cs ∈ c :: cs := by
  refine foldl_pick_mem _ ?_ c cs
  intro b x
  dsimp only
  split
  · simp
  · split <;> simp

theorem pickAfter_le (dn : Int) (c : Cand) (cs : List Cand) :
    ∀ x ∈ c :: cs, partsToUtcMillis (pickAfter dn c cs).parts ≤ partsToUtcMillis x.parts := by
  refine foldl_pick_le (fun z : Cand => partsToUtcMillis z.parts) _ ?_ c cs
  intro b x
  dsimp only
  constructor <;> (split <;> [omega; (split <;> omega)])

/-! ## Claim theorems -/

/-- C6: for every minute-valued duration field, an exact multiple of 15
converts to exactly value/15 chunks, and any non-multiple makes the
whole chunk normalization fail instead of rounding: this holds for the
conversion itself and propagates through `normalizeChunkInputs` for each
of `durationMinutes`, `minDurationMinutes`, `maxDurationMinutes`. -/
theorem C6_minute_conversion_exact (v : Int) (field : String) (input : TaskToolInput) :
    (v % 15 = 0 → minutesToChunks v field = .ok (v / 15)) ∧
    (v % 15 ≠ 0 → ∃ e, minutesToChunks v field = .error e) ∧
    (v % 15 ≠ 0 → input.durationMinutes = some v →
      ∃ e, normalizeChunkInputs input = .error e) ∧
    (v % 15 ≠ 0 → input.minDurationMinutes = some v →
      ∃ e, normalizeChunkInputs input = .error e) ∧
    (v % 15 ≠ 0 → input.maxDurationMinutes = some v →
      ∃ e, normalizeChunkInputs input = .error e) := by
  have herr : ∀ g : String, v % 15 ≠ 0 → minutesToChunks v g =
      .error (g ++ " must be a multiple of 15 minutes. Example: 60 minutes = 4 chunks.") := by
    intro g h
    simp [minutesToChunks, h]
  refine ⟨fun h => by simp [minutesToChunks, h], fun h => ⟨_, herr field h⟩, ?_, ?_, ?_⟩
  · intro h hv
    unfold normalizeChunkInputs
    rw [hv]
    simp only [chunkField, herr _ h, Except.map]
    exact ⟨_, rfl⟩
  · intro h hv
    unfold normalizeChunkInputs
    rw [hv]
    rcases hd : input.durationMinutes with _ | d1
    · simp only [chunkField, herr _ h, Except.map]
      exact ⟨_, rfl⟩
    · rcases hq : minutesToChunks d1 ("durationMinutes") with e1 | q1
      · simp only [chunkField, hq, Except.map]
        exact ⟨_, rfl⟩
      · simp only [chunkField, hq, Except.map, herr _ h]
        exact ⟨_, rfl⟩
  · intro h hv
    unfold normalizeChunkInputs
    rw [hv]
    rcases hd : input.durationMinutes with _ | d1
    · rcases hm : input.minDurationMinutes with _ | d2
      · simp only [chunkField, herr _ h, Except.map]
        exact ⟨_, rfl⟩
      · rcases hq2 : minutesToChunks d2 ("minDurationMinutes") with e2 | q2
        · simp only [chunkField, hq2, Except.map]
          exact ⟨_, rfl⟩
        · simp only [chunkField, hq2, Except.map, herr _ h]
          exact ⟨_, rfl⟩
    · rcases hq : minutesToChunks d1 ("durationMinutes") with e1 | q1
      · simp only [chunkField, hq, Except.map]
        exact ⟨_, rfl⟩
      · rcases hm : input.minDurationMinutes with _ | d2
        · simp only [chunkField, hq, Except.map, herr _ h]
          exact ⟨_, rfl⟩
        · rcases hq2 : minutesToChunks d2 ("minDurationMinutes") with e2 | q2
          · simp only [chunkField, hq, hq2, Except.map]
            exact ⟨_, rfl⟩
          · simp only [chunkField, hq, hq2, Except.map, herr _ h]
            exact ⟨_, rfl⟩

/-- Witness for C6 at minute values 60 (exact: 4 chunks) and 65
(rejected). -/
theorem C6_minute_conversion_exact_witness :
    minutesToChunks 60 ("durationMinutes") = .ok 4 ∧
    (∃ e, minutesToChunks 65 ("durationMinutes") = .error e) ∧
    (∃ e, normalizeChunkInputs { minDurationMinutes := some 65 } = .error e) := by
  refine ⟨?_, ?_, ?_⟩
  · have h := (C6_minute_conversion_exact 60 ("durationMinutes") {}).1 (by decide)
    simpa using h
  · exact (C6_minute_conversion_exact 65 ("durationMinutes") {}).2.1 (by decide)
  · exact (C6_minute_conversion_exact 65 ("durationMinutes")
      { minDurationMinutes := some 65 }).2.2.2.1 (by decide) rfl

theorem applyCreateEnums_chunks (t : TaskInputData) (d : TaskDefaults) :
    (applyCreateEnums t d).timeChunksRequired = t.timeChunksRequired ∧
    (applyCreateEnums t d).minChunkSize = t.minChunkSize ∧
    (applyCreateEnums t d).maxChunkSize = t.maxChunkSize := by
  unfold applyCreateEnums
  (repeat' split) <;> simp

theorem applyCreate_locked (o : TaskInputData) (d : TaskDefaults) (t : Int)
    (h1 : o.timeChunksRequired = some t) (h2 : o.minChunkSize = some t)
    (h3 : o.maxChunkSize = some t) :
    (applyTaskDefaultsForCreate o d).timeChunksRequired = some t ∧
    (applyTaskDefaultsForCreate o d).minChunkSize = some t ∧
    (applyTaskDefaultsForCreate o d).maxChunkSize = some t := by
  obtain ⟨e1, e2, e3⟩ := applyCreateEnums_chunks o d
  rw [h1] at e1
  rw [h2] at e2
  rw [h3] at e3
  unfold applyTaskDefaultsForCreate
  have htot : createTotalChunks (applyCreateEnums o d) d = t := by
    unfold createTotalChunks
    rw [e1]
    simp
  rw [htot]
  unfold applyCreateChunks
  rw [e2, e3]
  simp [min_self]

/-- C7: with the lock-to-duration flag set, a successful normalization
yields minChunkSize = maxChunkSize = timeChunksRequired, and the
equalities survive the create-flow defaulting and clamping. -/
theorem C7_lock_bounds_equal_total (input : TaskToolInput) (defaults : TaskDefaults)
    (out : TaskInputData)
    (hlock : input.lockChunkSizeToDuration = some true)
    (hok : normalizeChunkInputs input = .ok out) :
    (out.minChunkSize = out.timeChunksRequired ∧
     out.maxChunkSize = out.timeChunksRequired ∧
     out.timeChunksRequired.isSome = true) ∧
    ((applyTaskDefaultsForCreate out defaults).minChunkSize
        = (applyTaskDefaultsForCreate out defaults).timeChunksRequired ∧
     (applyTaskDefaultsForCreate out defaults).maxChunkSize
        = (applyTaskDefaultsForCreate out defaults).timeChunksRequired) := by
  unfold normalizeChunkInputs at hok
  rw [hlock] at hok
  split at hok
  · exact absurd hok (by simp)
  · split at hok
    · exact absurd hok (by simp)
    · split at hok
      · exact absurd hok (by simp)
      · rw [if_pos rfl] at hok
        split at hok
        · exact absurd hok (by simp)
        · rename_i tcr minC maxC t htcr
          have hout : out = setChunks input.base (some t) (some t) (some t) := by
            cases hok
            rfl
          subst hout
          have hs : ∀ x : TaskInputData,
              (setChunks x (some t) (some t) (some t)).timeChunksRequired = some t ∧
              (setChunks x (some t) (some t) (some t)).minChunkSize = some t ∧
              (setChunks x (some t) (some t) (some t)).maxChunkSize = some t := by
            intro x
            simp [setChunks]
          obtain ⟨ha, hb, hc⟩ := hs input.base
          obtain ⟨ka, kb, kc⟩ := applyCreate_locked _ defaults t ha hb hc
          refine ⟨⟨?_, ?_, ?_⟩, ?_, ?_⟩ <;> simp [ha, hb, hc, ka, kb, kc]

/-- Witness for C7: lock flag with a 60-minute duration gives
min = max = total = 4 chunks through both stages. -/
theorem C7_lock_bounds_equal_total_witness :
    normalizeChunkInputs
        { durationMinutes := some 60, minDurationMinutes := some 15,
          lockChunkSizeToDuration := some true } =
      .ok (setChunks {} (some 4) (some 4) (some 4)) ∧
    ((setChunks {} (some 4) (some 4) (some 4)).minChunkSize
        = (setChunks {} (some 4) (some 4) (some 4)).timeChunksRequired ∧
     (setChunks {} (some 4) (some 4) (some 4)).maxChunkSize
        = (setChunks {} (some 4) (some 4) (some 4)).timeChunksRequired ∧
     (setChunks {} (some 4) (some 4) (some 4)).timeChunksRequired.isSome = true) := by
  have hok : normalizeChunkInputs
      { durationMinutes := some 60, minDurationMinutes := some 15,
        lockChunkSizeToDuration := some true } =
      .ok (setChunks {} (some 4) (some 4) (some 4)) := by rfl
  exact ⟨hok, (C7_lock_bounds_equal_total _ {} _ rfl hok).1⟩

/-- Per-field presence comparison: `true` when every present field of
`a` is present in `b` (no new keys). -/
def fieldsSubset (a b : TaskInputData) : Bool :=
  (!a.title.isSome || b.title.isSome) &&
  (!a.notes.isSome || b.notes.isSome) &&
  (!a.eventCategory.isSome || b.eventCategory.isSome) &&
  (!a.eventSubType.isSome || b.eventSubType.isSome) &&
  (!a.priority.isSome || b.priority.isSome) &&
  (!a.timeChunksRequired.isSome || b.timeChunksRequired.isSome) &&
  (!a.minChunkSize.isSome || b.minChunkSize.isSome) &&
  (!a.maxChunkSize.isSome || b.maxChunkSize.isSome) &&
  (!a.onDeck.isSome || b.onDeck.isSome) &&
  (!a.alwaysPrivate.isSome || b.alwaysPrivate.isSome) &&
  (!a.timeSchemeId.isSome || b.timeSchemeId.isSome) &&
  (!a.status.isSome || b.status.isSome) &&
  (!a.eventColor.isSome || b.eventColor.isSome) &&
  (!a.due.isSome || b.due.isSome) &&
  (!a.deadline.isSome || b.deadline.isSome) &&
  (!a.snoozeUntil.isSome || b.snoozeUntil.isSome)

/-- `strTruthy` implies presence. -/
theorem strTruthy_isSome (o : Option String) (h : strTruthy o = true) :
    o.isSome = true := by
  cases o <;> simp_all [strTruthy]

/-- A present-to-present implication gives one `fieldsSubset` conjunct. -/
theorem optSubset_true {α : Type} (a b : Option α)
    (h : a.isSome = true → b.isSome = true) : (!a.isSome || b.isSome) = true := by
  cases ha : a.isSome
  · simp
  · simp [h ha]

/-- C9: patch normalization adds no field that the caller did not
supply: every present field of `normalizeTaskPatch t d` was present in
`t` (defaults are not injected; `timeSchemeId` may only be dropped). -/
theorem C9_patch_adds_no_fields (t : TaskInputData) (d : TaskDefaults) :
    fieldsSubset (normalizeTaskPatch t d) t = true := by
  have h_title : (!(normalizeTaskPatch t d).title.isSome || t.title.isSome) = true := by
    refine optSubset_true _ _ fun h => ?_
    rwa [show (normalizeTaskPatch t d).title = t.title from rfl] at h
  have h_notes : (!(normalizeTaskPatch t d).notes.isSome || t.notes.isSome) = true := by
    refine optSubset_true _ _ fun h => ?_
    rwa [show (normalizeTaskPatch t d).notes = t.notes from rfl] at h
  have h_timeChunksRequired : (!(normalizeTaskPatch t d).timeChunksRequired.isSome || t.timeChunksRequired.isSome) = true := by
    refine optSubset_true _ _ fun h => ?_
    rwa [show (normalizeTaskPatch t d).timeChunksRequired = t.timeChunksRequired from rfl] at h
  have h_onDeck : (!(normalizeTaskPatch t d).onDeck.isSome || t.onDeck.isSome) = true := by
    refine optSubset_true _ _ fun h => ?_
    rwa [show (normalizeTaskPatch t d).onDeck = t.onDeck from rfl] at h
  have h_alwaysPrivate : (!(normalizeTaskPatch t d).alwaysPrivate.isSome || t.alwaysPrivate.isSome) = true := by
    refine optSubset_true _ _ fun h => ?_
    rwa [show (normalizeTaskPatch t d).alwaysPrivate = t.alwaysPrivate from rfl] at h
  have h_status : (!(normalizeTaskPatch t d).status.isSome || t.status.isSome) = true := by
    refine optSubset_true _ _ fun h => ?_
    rwa [show (normalizeTaskPatch t d).status = t.status from rfl] at h
  have h_eventColor : (!(normalizeTaskPatch t d).eventColor.isSome || t.eventColor.isSome) = true := by
    refine optSubset_true _ _ fun h => ?_
    rwa [show (normalizeTaskPatch t d).eventColor = t.eventColor from rfl] at h
  have h_due : (!(normalizeTaskPatch t d).due.isSome || t.due.isSome) = true := by
    refine optSubset_true _ _ fun h => ?_
    rwa [show (normalizeTaskPatch t d).due = t.due from rfl] at h
  have h_deadline : (!(normalizeTaskPatch t d).deadline.isSome || t.deadline.isSome) = true := by
    refine optSubset_true _ _ fun h => ?_
    rwa [show (normalizeTaskPatch t d).deadline = t.deadline from rfl] at h
  have h_snoozeUntil : (!(normalizeTaskPatch t d).snoozeUntil.isSome || t.snoozeUntil.isSome) = true := by
    refine optSubset_true _ _ fun h => ?_
    rwa [show (normalizeTaskPatch t d).snoozeUntil = t.snoozeUntil from rfl] at h
  have h_eventCategory :
      (!(normalizeTaskPatch t d).eventCategory.isSome || t.eventCategory.isSome) = true := by
    refine optSubset_true _ _ fun h => ?_
    rw [show (normalizeTaskPatch t d).eventCategory
        = (if strTruthy t.eventCategory
            then some (normalizeEventCategory t.eventCategory d.category)
            else t.eventCategory) from rfl] at h
    by_cases hc : strTruthy t.eventCategory = true
    · exact strTruthy_isSome _ hc
    · rwa [if_neg (by simpa using hc)] at h
  have h_eventSubType :
      (!(normalizeTaskPatch t d).eventSubType.isSome || t.eventSubType.isSome) = true := by
    refine optSubset_true _ _ fun h => ?_
    by_cases hc : strTruthy t.eventSubType = true
    · exact strTruthy_isSome _ hc
    · rw [show (normalizeTaskPatch t d).eventSubType
          = (if strTruthy t.eventSubType
              then some (normalizeEventSubType t.eventSubType
                (if strTruthy (if strTruthy t.eventCategory
                    then some (normalizeEventCategory t.eventCategory d.category)
                    else t.eventCategory)
                  then normalizeEventCategory (if strTruthy t.eventCategory
                    then some (normalizeEventCategory t.eventCategory d.category)
                    else t.eventCategory) none
                  else normalizeEventCategory none
                    (jsNullish (inferCategoryFromSubType t.eventSubType) d.category)))
              else t.eventSubType) from rfl, if_neg (by simpa using hc)] at h
      exact h
  have h_priority :
      (!(normalizeTaskPatch t d).priority.isSome || t.priority.isSome) = true := by
    refine optSubset_true _ _ fun h => ?_
    rw [show (normalizeTaskPatch t d).priority
        = (if strTruthy t.priority
            then some (normalizePriority t.priority d.priority)
            else t.priority) from rfl] at h
    by_cases hc : strTruthy t.priority = true
    · exact strTruthy_isSome _ hc
    · rwa [if_neg (by simpa using hc)] at h
  have h_timeSchemeId :
      (!(normalizeTaskPatch t d).timeSchemeId.isSome || t.timeSchemeId.isSome) = true := by
    refine optSubset_true _ _ fun h => ?_
    rw [show (normalizeTaskPatch t d).timeSchemeId
        = (match t.timeSchemeId with
            | some s => if s = "" then none else some s
            | none => none) from rfl] at h
    rcases hs : t.timeSchemeId with _ | s <;> simp_all
  have h_minChunkSize :
      (!(normalizeTaskPatch t d).minChunkSize.isSome || t.minChunkSize.isSome) = true := by
    refine optSubset_true _ _ fun h => ?_
    rw [show (normalizeTaskPatch t d).minChunkSize
        = (match t.timeChunksRequired, t.minChunkSize with
            | some tc, some m => some (min m tc)
            | _, _ => t.minChunkSize) from rfl] at h
    rcases t.timeChunksRequired with _ | tc <;> rcases hm : t.minChunkSize with _ | m <;>
      simp_all
  have h_maxChunkSize :
      (!(normalizeTaskPatch t d).maxChunkSize.isSome || t.maxChunkSize.isSome) = true := by
    refine optSubset_true _ _ fun h => ?_
    rw [show (normalizeTaskPatch t d).maxChunkSize
        = (match (match t.timeChunksRequired, t.minChunkSize with
                  | some tc, some m => some (min m tc)
                  | _, _ => t.minChunkSize),
                (match t.timeChunksRequired, t.maxChunkSize with
                  | some tc, some m => some (min m tc)
                  | _, _ => t.maxChunkSize) with
            | some a, some b => if a > b then some a else some b
            | _, b => b) from rfl] at h
    rcases t.timeChunksRequired with _ | tc <;>
      rcases hm : t.minChunkSize with _ | m <;>
      rcases hx : t.maxChunkSize with _ | x <;>
      simp_all
  simp only [fieldsSubset, h_title, h_notes, h_eventCategory, h_eventSubType,
    h_priority, h_timeChunksRequired, h_minChunkSize, h_maxChunkSize, h_onDeck,
    h_alwaysPrivate, h_timeSchemeId, h_status, h_eventColor, h_due, h_deadline,
    h_snoozeUntil, Bool.and_self]

/-- C10: the lock flag with neither a total chunk count nor a duration
fails; with convertible (or absent) minute bounds the error is exactly
the lock message. -/
theorem C10_lock_requires_duration (input : TaskToolInput)
    (hlock : input.lockChunkSizeToDuration = some true)
    (htcr : input.base.timeChunksRequired = none)
    (hdur : input.durationMinutes = none) :
    (∃ e, normalizeChunkInputs input = .error e) ∧
    ((∀ v, input.minDurationMinutes = some v → v % 15 = 0) →
     (∀ v, input.maxDurationMinutes = some v → v % 15 = 0) →
     normalizeChunkInputs input =
       .error ("lockChunkSizeToDuration requires timeChunksRequired or durationMinutes.")) := by
  have hok : ∀ v : Int, v % 15 = 0 → ∀ g : String,
      minutesToChunks v g = .ok (v / 15) := by
    intro v h g
    simp [minutesToChunks, h]
  rcases hm2 : input.minDurationMinutes with _ | v2 <;>
    rcases hm3 : input.maxDurationMinutes with _ | v3 <;>
    unfold normalizeChunkInputs chunkField <;>
    rw [hdur, htcr, hm2, hm3, hlock] <;>
    dsimp only
  · exact ⟨⟨_, rfl⟩, fun _ _ => rfl⟩
  · rcases hq3 : minutesToChunks v3 ("maxDurationMinutes") with e3 | q3
    · refine ⟨⟨_, rfl⟩, fun _ h3 => ?_⟩
      rw [hok v3 (h3 v3 rfl) _] at hq3
      cases hq3
    · exact ⟨⟨_, rfl⟩, fun _ _ => rfl⟩
  · rcases hq2 : minutesToChunks v2 ("minDurationMinutes") with e2 | q2
    · refine ⟨⟨_, rfl⟩, fun h2 _ => ?_⟩
      rw [hok v2 (h2 v2 rfl) _] at hq2
      cases hq2
    · exact ⟨⟨_, rfl⟩, fun _ _ => rfl⟩
  · rcases hq2 : minutesToChunks v2 ("minDurationMinutes") with e2 | q2
    · refine ⟨⟨_, rfl⟩, fun h2 _ => ?_⟩
      rw [hok v2 (h2 v2 rfl) _] at hq2
      cases hq2
    · rcases hq3 : minutesToChunks v3 ("maxDurationMinutes") with e3 | q3
      · refine ⟨⟨_, rfl⟩, fun _ h3 => ?_⟩
        rw [hok v3 (h3 v3 rfl) _] at hq3
        cases hq3
      · exact ⟨⟨_, rfl⟩, fun _ _ => rfl⟩

/-- Witness for C10: lock flag with only a minute-denominated minimum
bound. -/
theorem C10_lock_requires_duration_witness :
    normalizeChunkInputs
        { lockChunkSizeToDuration := some true, minDurationMinutes := some 30 } =
      .error ("lockChunkSizeToDuration requires timeChunksRequired or durationMinutes.") := by
  refine (C10_lock_requires_duration
      { lockChunkSizeToDuration := some true, minDurationMinutes := some 30 }
      rfl rfl rfl).2 ?_ ?_
  · intro v hv
    cases hv
    decide
  · intro v hv
    cases hv

/-! ## C1: minute-denominated min/max conflict -/

/-- A create/update invocation whose minute bounds convert to
min 4 chunks > max 2 chunks. -/
def conflictInput : TaskToolInput :=
  { minDurationMinutes := some 60, maxDurationMinutes := some 30 }

/-- Counterexample to C1: with minDurationMinutes = 60 and
maxDurationMinutes = 30 neither the create flow nor the update flow
fails with ChunkSizeConflict; both succeed, forwarding a repaired range
with the maximum raised to the minimum (4 chunks). -/
theorem C1_counterexample :
    createTaskNormalize conflictInput {} =
      .ok { eventCategory := some "WORK", eventSubType := some "FOCUS",
            priority := some "P3", notes := some "",
            timeChunksRequired := some 4, minChunkSize := some 4,
            maxChunkSize := some 4 } ∧
    updateTaskNormalize conflictInput {} =
      .ok { minChunkSize := some 4, maxChunkSize := some 4 } :=
  ⟨rfl, rfl⟩

theorem validateChunkSizes_ok_of_eq (n : TaskInputData)
    (h : n.maxChunkSize = n.minChunkSize) : validateChunkSizes n = .ok () := by
  unfold validateChunkSizes
  rcases hm : n.minChunkSize with _ | m <;> rw [hm] at h <;> rw [h]
  simp

theorem applyCreateChunks_repairs (o : TaskInputData) (d : TaskDefaults)
    (tcrF a b : Int) (hmin : o.minChunkSize = some a) (hmax : o.maxChunkSize = some b)
    (hab : b < a) :
    (applyCreateChunks o d tcrF).maxChunkSize
      = (applyCreateChunks o d tcrF).minChunkSize := by
  have hmono : min b tcrF ≤ min a tcrF := min_le_min (le_of_lt hab) le_rfl
  have h1 : (applyCreateChunks o d tcrF).minChunkSize = some (min a tcrF) := by
    simp [applyCreateChunks, hmin, hmax]
  have h2 : (applyCreateChunks o d tcrF).maxChunkSize =
      (if min a tcrF > min b tcrF then some (min a tcrF) else some (min b tcrF)) := by
    simp [applyCreateChunks, hmin, hmax]
  rw [h1, h2]
  split
  · rfl
  · rename_i hlt
    have : min a tcrF = min b tcrF := le_antisymm (by omega) hmono
    rw [this]

theorem normalizeTaskPatch_repairs (t : TaskInputData) (d : TaskDefaults)
    (a b : Int) (hmin : t.minChunkSize = some a) (hmax : t.maxChunkSize = some b)
    (hab : b < a) :
    (normalizeTaskPatch t d).maxChunkSize = (normalizeTaskPatch t d).minChunkSize := by
  rcases htc : t.timeChunksRequired with _ | tc
  · have h1 : (normalizeTaskPatch t d).minChunkSize = some a := by
      simp [normalizeTaskPatch, hmin, hmax, htc]
    have h2 : (normalizeTaskPatch t d).maxChunkSize =
        (if a > b then some a else some b) := by
      simp [normalizeTaskPatch, hmin, hmax, htc]
    rw [h1, h2, if_pos hab]
  · have hmono : min b tc ≤ min a tc := min_le_min (le_of_lt hab) le_rfl
    have h1 : (normalizeTaskPatch t d).minChunkSize = some (min a tc) := by
      simp [normalizeTaskPatch, hmin, hmax, htc]
    have h2 : (normalizeTaskPatch t d).maxChunkSize =
        (if min a tc > min b tc then some (min a tc) else some (min b tc)) := by
      simp [normalizeTaskPatch, hmin, hmax, htc]
    rw [h1, h2]
    split
    · rfl
    · rename_i hlt
      have : min a tc = min b tc := le_antisymm (by omega) hmono
      rw [this]

/-- C1 as amended: a minute-denominated conflict (converted minimum
above converted maximum) does not fail with ChunkSizeConflict; both the
create and the update flow succeed and forward a repaired range whose
maximum has been raised to equal the minimum, because
`applyTaskDefaultsForCreate` / `normalizeTaskPatch` repair the bounds
before `validateChunkSizes` runs. -/
theorem C1_conflict_repaired (input : TaskToolInput) (defaults : TaskDefaults)
    (d : TaskInputData) (a b : Int)
    (hd : normalizeChunkInputs input = .ok d)
    (hmin : d.minChunkSize = some a) (hmax : d.maxChunkSize = some b) (hab : b < a) :
    (createTaskNormalize input defaults = .ok (applyTaskDefaultsForCreate d defaults) ∧
      (applyTaskDefaultsForCreate d defaults).maxChunkSize
        = (applyTaskDefaultsForCreate d defaults).minChunkSize) ∧
    (updateTaskNormalize input defaults = .ok (normalizeTaskPatch d defaults) ∧
      (normalizeTaskPatch d defaults).maxChunkSize
        = (normalizeTaskPatch d defaults).minChunkSize) := by
  have hce : ∀ x : TaskDefaults,
      (applyCreateEnums d x).minChunkSize = some a ∧
      (applyCreateEnums d x).maxChunkSize = some b := by
    intro x
    obtain ⟨_, e2, e3⟩ := applyCreateEnums_chunks d x
    exact ⟨e2.trans hmin, e3.trans hmax⟩
  have hcreate : (applyTaskDefaultsForCreate d defaults).maxChunkSize
      = (applyTaskDefaultsForCreate d defaults).minChunkSize := by
    unfold applyTaskDefaultsForCreate
    exact applyCreateChunks_repairs _ _ _ a b (hce defaults).1 (hce defaults).2 hab
  have hpatch : (normalizeTaskPatch d defaults).maxChunkSize
      = (normalizeTaskPatch d defaults).minChunkSize :=
    normalizeTaskPatch_repairs d defaults a b hmin hmax hab
  refine ⟨⟨?_, hcreate⟩, ⟨?_, hpatch⟩⟩
  · unfold createTaskNormalize
    rw [hd]
    dsimp only
    rw [validateChunkSizes_ok_of_eq _ hcreate]
  · unfold updateTaskNormalize
    rw [hd]
    dsimp only
    rw [validateChunkSizes_ok_of_eq _ hpatch]

/-- Witness for the amended C1 at minDurationMinutes = 60,
maxDurationMinutes = 30. -/
theorem C1_conflict_repaired_witness :
    createTaskNormalize conflictInput {} =
      .ok (applyTaskDefaultsForCreate (setChunks {} none (some 4) (some 2)) {}) ∧
    (applyTaskDefaultsForCreate (setChunks {} none (some 4) (some 2)) {}).maxChunkSize
      = (applyTaskDefaultsForCreate (setChunks {} none (some 4) (some 2)) {}).minChunkSize :=
  (C1_conflict_repaired conflictInput {} (setChunks {} none (some 4) (some 2))
    4 2 rfl rfl rfl (by decide)).1

/-! ## C4: absolute-datetime identity -/

/-- C4: a string carrying an explicit UTC offset or Z denotes exactly
the instant the environment `Date` parser yields, serialized by
`toISOString` (ISO 8601 UTC, millisecond precision), independently of
whichever time zone the resolution context supplies. -/
theorem C4_absolute_offset_identity (jsParse : String → Option Int)
    (host : JsLocalZone) (now : Int) (s : String) (t : Int) (zone1 zone2 : Zone)
    (hsuf : hasTimezoneSuffix (jsTrim s) = true)
    (hparse : jsParse (jsTrim s) = some t) :
    parseDeadline jsParse host now (some (.str s)) zone1 = .ok (toISOString t) ∧
    parseDeadline jsParse host now (some (.str s)) zone2 = .ok (toISOString t) := by
  constructor <;>
    · unfold parseDeadline
      dsimp only
      rw [if_pos hsuf, hparse]

/-- Witness for C4: the offset-carrying string of the unit-test suite,
resolved once against America/Los_Angeles and once against UTC. -/
theorem C4_absolute_offset_identity_witness :
    hasTimezoneSuffix (jsTrim ("2026-01-05T08:00:00-08:00")) = true ∧
    isoParse (jsTrim ("2026-01-05T08:00:00-08:00")) = some 1767628800000 ∧
    parseDeadline isoParse laHost 0 (some (.str ("2026-01-05T08:00:00-08:00"))) zoneLA =
      .ok (toISOString 1767628800000) ∧
    parseDeadline isoParse laHost 0 (some (.str ("2026-01-05T08:00:00-08:00")))
        (fun _ => 0) =
      .ok (toISOString 1767628800000) := by
  have h1 : hasTimezoneSuffix (jsTrim ("2026-01-05T08:00:00-08:00")) = true := by decide
  have h2 : isoParse (jsTrim ("2026-01-05T08:00:00-08:00")) = some 1767628800000 := by rfl
  have h := C4_absolute_offset_identity isoParse laHost 0
    ("2026-01-05T08:00:00-08:00") 1767628800000 zoneLA (fun _ => 0) h1 h2
  exact ⟨h1, h2, h.1, h.2⟩

/-! ## C8: malformed local date-times are rejected -/

/-- The component range checks of `assertValidLocalDateTime`, as listed
by the claim. -/
def localOutOfRange (p : LocalMatch) : Prop :=
  p.month < 1 ∨ p.month > 12 ∨ p.day < 1 ∨ p.day > 31 ∨ p.hour < 0 ∨ p.hour > 23 ∨
    p.minute < 0 ∨ p.minute > 59 ∨ p.second < 0 ∨ p.second > 59 ∨
    p.millisecond < 0 ∨ p.millisecond > 999

/-- C8: any local date-time whose components are out of range or whose
composite date rolls over is rejected by `assertValidLocalDateTime`; in
particular resolving "2026-02-30T09:00:00" (roll-over) and
"2026-01-05T25:00:00" (hour range) both fail with the source's
invalid-input errors. -/
theorem C8_invalid_local_rejected (p : LocalMatch) (s : String)
    (hbad : localOutOfRange p ∨ utcCheckFails p = true) :
    (∃ e, assertValidLocalDateTime p s = .error e) ∧
    parseDeadline isoParse laHost 0 (some (.str ("2026-02-30T09:00:00"))) zoneLA =
      .error ("Invalid date/time: \"2026-02-30T09:00:00\"") ∧
    parseDeadline isoParse laHost 0 (some (.str ("2026-01-05T25:00:00"))) zoneLA =
      .error ("Invalid hour in date/time: \"2026-01-05T25:00:00\"") := by
  refine ⟨?_, by rfl, by rfl⟩
  unfold assertValidLocalDateTime
  split
  · exact ⟨_, rfl⟩
  split
  · exact ⟨_, rfl⟩
  split
  · exact ⟨_, rfl⟩
  split
  · exact ⟨_, rfl⟩
  split
  · exact ⟨_, rfl⟩
  split
  · exact ⟨_, rfl⟩
  split
  · exact ⟨_, rfl⟩
  rename_i h1 h2 h3 h4 h5 h6 h7
  rcases hbad with hr | hb
  · exfalso
    unfold localOutOfRange at hr
    omega
  · exact absurd hb (by simpa using h7)

/-- Witness for C8 at February 30 (roll-over branch of the
hypothesis). -/
theorem C8_invalid_local_rejected_witness :
    (utcCheckFails ⟨2026, 2, 30, 9, 0, 0, 0⟩ = true) ∧
    (∃ e, assertValidLocalDateTime ⟨2026, 2, 30, 9, 0, 0, 0⟩
      ("2026-02-30T09:00:00") = .error e) := by
  have hb : utcCheckFails ⟨2026, 2, 30, 9, 0, 0, 0⟩ = true := by decide
  exact ⟨hb, (C8_invalid_local_rejected ⟨2026, 2, 30, 9, 0, 0, 0⟩
    ("2026-02-30T09:00:00") (Or.inr hb)).1⟩

/-! ## C2 and C3: DST disambiguation -/

set_option maxRecDepth 100000 in
set_option maxHeartbeats 2000000 in
/-- C2: whenever some probed candidate renders exactly the requested
wall clock (in particular when a fall-back overlap makes two candidates
match), `zonedTimeToUtc` returns the earliest matching instant; and the
fall-back scenario "2026-11-01T01:30:00" in America/Los_Angeles resolves
to 2026-11-01T08:30:00.000Z. -/
theorem C2_fallback_earliest (y m d h mi s ms : Int) (zone : Zone) (c : Cand)
    (hc : c ∈ zCandidates zone (dateUTC y (m - 1) d h mi s ms))
    (hmatch : partsMatch c.parts ⟨y, m, d, h, mi, s⟩ = true) :
    (zonedTimeToUtc y m d h mi s ms zone ≤ c.date ∧
     ∃ c0 ∈ zCandidates zone (dateUTC y (m - 1) d h mi s ms),
       partsMatch c0.parts ⟨y, m, d, h, mi, s⟩ = true ∧
       zonedTimeToUtc y m d h mi s ms zone = c0.date) ∧
    parseDeadline isoParse laHost 0 (some (.str ("2026-11-01T01:30:00"))) zoneLA =
      .ok ("2026-11-01T08:30:00.000Z") := by
  refine ⟨?_, by rfl⟩
  have hcf : c ∈ (zCandidates zone (dateUTC y (m - 1) d h mi s ms)).filter
      (fun x => partsMatch x.parts ⟨y, m, d, h, mi, s⟩) :=
    List.mem_filter.mpr ⟨hc, hmatch⟩
  unfold zonedTimeToUtc
  dsimp only
  rcases hl : (zCandidates zone (dateUTC y (m - 1) d h mi s ms)).filter
      (fun x => partsMatch x.parts ⟨y, m, d, h, mi, s⟩) with _ | ⟨c0, cs⟩
  · rw [hl] at hcf
    simp at hcf
  · rw [hl] at hcf
    rw [hl]
    dsimp only
    have hf1 : ∀ b x : Cand,
        (if x.date < b.date then x else b) = b ∨ (if x.date < b.date then x else b) = x := by
      intro b x
      split <;> simp
    have hf2 : ∀ b x : Cand,
        Cand.date (if x.date < b.date then x else b) ≤ Cand.date b ∧
        Cand.date (if x.date < b.date then x else b) ≤ Cand.date x := by
      intro b x
      constructor <;> (split <;> omega)
    have hmem := foldl_pick_mem (fun best x => if x.date < best.date then x else best)
      hf1 c0 cs
    have hle := foldl_pick_le Cand.date
      (fun best x => if x.date < best.date then x else best) hf2 c0 cs
    refine ⟨hle c hcf, ?_⟩
    rw [← hl] at hmem
    obtain ⟨hmemc, hmemp⟩ := List.mem_filter.mp hmem
    exact ⟨_, hmemc, hmemp, rfl⟩

set_option maxRecDepth 100000 in
set_option maxHeartbeats 2000000 in
/-- Witness for C2: the fall-back overlap 2026-11-01T01:30:00 in
America/Los_Angeles; both candidates render 01:30 and the earlier
(08:30Z) wins. -/
theorem C2_fallback_earliest_witness :
    (⟨1793521800000, ⟨2026, 11, 1, 1, 30, 0⟩⟩ : Cand) ∈
      zCandidates zoneLA (dateUTC 2026 (11 - 1) 1 1 30 0 0) ∧
    partsMatch (⟨2026, 11, 1, 1, 30, 0⟩ : TimeParts) ⟨2026, 11, 1, 1, 30, 0⟩ = true ∧
    zonedTimeToUtc 2026 11 1 1 30 0 0 zoneLA ≤ 1793521800000 := by
  have h1 : (⟨1793521800000, ⟨2026, 11, 1, 1, 30, 0⟩⟩ : Cand) ∈
      zCandidates zoneLA (dateUTC 2026 (11 - 1) 1 1 30 0 0) := by decide
  have h2 : partsMatch (⟨2026, 11, 1, 1, 30, 0⟩ : TimeParts) ⟨2026, 11, 1, 1, 30, 0⟩
      = true := by decide
  exact ⟨h1, h2, (C2_fallback_earliest 2026 11 1 1 30 0 0 zoneLA
    ⟨1793521800000, ⟨2026, 11, 1, 1, 30, 0⟩⟩ h1 h2).1.1⟩

set_option maxRecDepth 100000 in
set_option maxHeartbeats 4000000 in
/-- C3: when no candidate renders the requested wall clock (a
spring-forward gap) but some candidate renders at or after it,
`zonedTimeToUtc` returns a candidate rendering at-or-after the request
whose rendering is least (the snap-forward choice); and the gap scenario
"2026-03-08T02:30:00" in America/Los_Angeles resolves to
2026-03-08T10:30:00.000Z. -/
theorem C3_gap_snaps_forward (y m d h mi s ms : Int) (zone : Zone) (c : Cand)
    (hnone : ∀ x ∈ zCandidates zone (dateUTC y (m - 1) d h mi s ms),
        partsMatch x.parts ⟨y, m, d, h, mi, s⟩ = false)
    (hc : c ∈ zCandidates zone (dateUTC y (m - 1) d h mi s ms))
    (hafter : partsToUtcMillis ⟨y, m, d, h, mi, s⟩ ≤ partsToUtcMillis c.parts) :
    (∃ c0 ∈ zCandidates zone (dateUTC y (m - 1) d h mi s ms),
        partsToUtcMillis ⟨y, m, d, h, mi, s⟩ ≤ partsToUtcMillis c0.parts ∧
        zonedTimeToUtc y m d h mi s ms zone = c0.date ∧
        ∀ x ∈ zCandidates zone (dateUTC y (m - 1) d h mi s ms),
          partsToUtcMillis ⟨y, m, d, h, mi, s⟩ ≤ partsToUtcMillis x.parts →
          partsToUtcMillis c0.parts ≤ partsToUtcMillis x.parts) ∧
    parseDeadline isoParse laHost 0 (some (.str ("2026-03-08T02:30:00"))) zoneLA =
      .ok ("2026-03-08T10:30:00.000Z") := by
  refine ⟨?_, by rfl⟩
  have hnil : (zCandidates zone (dateUTC y (m - 1) d h mi s ms)).filter
      (fun x => partsMatch x.parts ⟨y, m, d, h, mi, s⟩) = [] := by
    rw [List.filter_eq_nil]
    intro a ha
    simp [hnone a ha]
  have hcf : c ∈ (zCandidates zone (dateUTC y (m - 1) d h mi s ms)).filter
      (fun x => decide (partsToUtcMillis ⟨y, m, d, h, mi, s⟩ ≤ partsToUtcMillis x.parts)) :=
    List.mem_filter.mpr ⟨hc, by simpa using hafter⟩
  unfold zonedTimeToUtc
  dsimp only
  rw [hnil]
  dsimp only
  rcases ha : (zCandidates zone (dateUTC y (m - 1) d h mi s ms)).filter
      (fun x => decide (partsToUtcMillis ⟨y, m, d, h, mi, s⟩ ≤ partsToUtcMillis x.parts))
      with _ | ⟨a0, as⟩
  · rw [ha] at hcf
    simp at hcf
  · rw [ha] at hcf
    rw [ha]
    dsimp only
    have hmem := pickAfter_mem (partsToUtcMillis ⟨y, m, d, h, mi, s⟩) a0 as
    have hle := pickAfter_le (partsToUtcMillis ⟨y, m, d, h, mi, s⟩) a0 as
    rw [← ha] at hmem
    obtain ⟨hmemc, hmemp⟩ := List.mem_filter.mp hmem
    refine ⟨_, hmemc, by simpa using hmemp, rfl, ?_⟩
    intro x hx hxge
    have hxmem : x ∈ (zCandidates zone (dateUTC y (m - 1) d h mi s ms)).filter
        (fun x => decide (partsToUtcMillis ⟨y, m, d, h, mi, s⟩ ≤ partsToUtcMillis x.parts)) :=
      List.mem_filter.mpr ⟨hx, by simpa using hxge⟩
    rw [ha] at hxmem
    exact hle x hxmem

set_option maxRecDepth 100000 in
set_option maxHeartbeats 2000000 in
/-- Witness for C3: the spring-forward gap 2026-03-08T02:30:00 in
America/Los_Angeles; no candidate renders 02:30, the 03:30 rendering
(10:30Z) is the snap-forward choice. -/
theorem C3_gap_snaps_forward_witness :
    (∀ x ∈ zCandidates zoneLA (dateUTC 2026 (3 - 1) 8 2 30 0 0),
        partsMatch x.parts ⟨2026, 3, 8, 2, 30, 0⟩ = false) ∧
    (⟨1772965800000, ⟨2026, 3, 8, 3, 30, 0⟩⟩ : Cand) ∈
      zCandidates zoneLA (dateUTC 2026 (3 - 1) 8 2 30 0 0) ∧
    partsToUtcMillis ⟨2026, 3, 8, 2, 30, 0⟩ ≤
      partsToUtcMillis (⟨2026, 3, 8, 3, 30, 0⟩ : TimeParts) ∧
    parseDeadline isoParse laHost 0 (some (.str ("2026-03-08T02:30:00"))) zoneLA =
      .ok ("2026-03-08T10:30:00.000Z") := by
  have h1 : ∀ x ∈ zCandidates zoneLA (dateUTC 2026 (3 - 1) 8 2 30 0 0),
      partsMatch x.parts ⟨2026, 3, 8, 2, 30, 0⟩ = false := by decide
  have h2 : (⟨1772965800000, ⟨2026, 3, 8, 3, 30, 0⟩⟩ : Cand) ∈
      zCandidates zoneLA (dateUTC 2026 (3 - 1) 8 2 30 0 0) := by decide
  have h3 : partsToUtcMillis ⟨2026, 3, 8, 2, 30, 0⟩ ≤
      partsToUtcMillis (⟨2026, 3, 8, 3, 30, 0⟩ : TimeParts) := by decide
  exact ⟨h1, h2, h3, (C3_gap_snaps_forward 2026 3 8 2 30 0 0 zoneLA
    ⟨1772965800000, ⟨2026, 3, 8, 3, 30, 0⟩⟩ h1 h2 h3).2⟩

/-! ## C5: the relative-day path -/

set_option maxRecDepth 100000 in
set_option maxHeartbeats 4000000 in
/-- C5 counterexample: with an America/Los_Angeles host machine at
2026-03-08T04:00:00Z, a relative deadline of 1 day resolves to
2026-03-09T03:00:00.000Z, which is 23 hours later, not 24: `setDate`
performs a host-local calendar-day shift, so the absolute shift shrinks
or grows across a DST transition of the host zone. -/
theorem C5_counterexample :
    parseDeadline isoParse laHost (dateUTC 2026 2 8 4 0 0 0) (some (.num 1)) zoneLA =
      .ok ("2026-03-09T03:00:00.000Z") ∧
    relativeDays laHost (dateUTC 2026 2 8 4 0 0 0) 1 ≠
      dateUTC 2026 2 8 4 0 0 0 + 1 * 86400000 := by
  exact ⟨by rfl, by decide⟩

set_option maxRecDepth 100000 in
set_option maxHeartbeats 4000000 in
/-- C5 amended: the numeric relative-day branch shifts the deadline by N
calendar days in the host machine's zone (ECMAScript `setDate`),
preserving the host-local wall-clock time.  On a host whose UTC offset
never changes (any fixed-offset zone) this coincides with a shift by
exactly N × 24 hours of absolute time, and `parseDeadline` renders
`now + N * 86400000`. -/
theorem C5_fixed_host_exact (off now n : Int) (zone : Zone) (h : 0 < n) :
    relativeDays (fixedZone off) now n = now + n * 86400000 ∧
    parseDeadline isoParse (fixedZone off) now (some (.num n)) zone =
      .ok (toISOString (now + n * 86400000)) := by
  have hrel : relativeDays (fixedZone off) now n = now + n * 86400000 := by
    unfold relativeDays fixedZone
    dsimp only
    rw [makeDay_add_days, makeDay_civilFromDays]
    omega
  refine ⟨hrel, ?_⟩
  unfold parseDeadline
  dsimp only
  rw [if_neg (by omega), hrel]

/-- Witness for the amended C5: a one-hour-east fixed host zone, two
days ahead of 2026-01-05T16:00:00Z. -/
theorem C5_fixed_host_exact_witness :
    (0 : Int) < 2 ∧
    (relativeDays (fixedZone 3600000) 1767628800000 2 =
      1767628800000 + 2 * 86400000 ∧
     parseDeadline isoParse (fixedZone 3600000) 1767628800000 (some (.num 2)) zoneLA =
       .ok (toISOString (1767628800000 + 2 * 86400000))) :=
  ⟨by decide, C5_fixed_host_exact 3600000 1767628800000 2 zoneLA (by decide)⟩

end Reclaim
